import Mathlib

/-!
Verification of the webhook ingestion and event-dispatch pipeline of fbtools.

The definitions below are shallow embeddings of the Python sources:
* `fbtools/official/listener.py` (webhook verification, dedup cache path),
* `fbtools/official/models/listener/page/feeds/feed.py` (feed variant models),
* `fbtools/official/models/page/messaging/message.py` (messaging discrimination),
* `fbtools/official/events/dispatcher.py` and `fbtools/official/events/handler.py`
  (handler registry and event fan-out).

Python dicts are modelled as association lists, machine integers as `Nat`
(no arithmetic overflows occur in the modelled code), exceptions as `Except`,
and the `cachetools.FIFOCache` as a capacity-bounded list of keys in insertion
order.  The listener envelope model (`models/listener/page/page.py`) is not
present in the sources and is modelled from the specification where noted.
-/

/-! ## Feed variant models (`models/listener/page/feeds/feed.py`) -/

/-- `FeedFrom`: sender of a feed item (`name`, `id`). -/
structure FeedFrom where
  name : String
  id : String
deriving DecidableEq, Repr

/-- `FeedPostData`: the `post` sub-object carried by comment feed values.
`status_type` is one of `mobile_status_update | added_photos | added_video`,
`promotion_status` one of `inactive | ineligible`; `updated_time` is kept as
its wire string. -/
structure FeedPostData where
  status_type : String
  is_published : Bool
  updated_time : String
  permalink_url : String
  promotion_status : String
  id : String
deriving DecidableEq, Repr

/-- `FEED_VERB_TYPES = Literal["add", "edited", "remove"]`. -/
def FEED_VERB_TYPES : List String := ["add", "edited", "remove"]

/-- `REACTION_VERB_TYPES = Literal["add", "remove", "edit"]`. -/
def REACTION_VERB_TYPES : List String := ["add", "remove", "edit"]

/-- `REACTION_TYPES = Literal["like", "love", "wow", "care", "haha", "sad", "angry"]`. -/
def REACTION_TYPES : List String := ["like", "love", "wow", "care", "haha", "sad", "angry"]

/-- `FeedNewReactionOnPost`: someone reacted on a post. -/
structure FeedNewReactionOnPost where
  from_ : FeedFrom
  post_id : String
  created_time : Nat
  item : String
  parent_id : String
  reaction_type : String
  verb : String
deriving DecidableEq, Repr

/-- `FeedNewReactionOnComment`: someone reacted on a comment. -/
structure FeedNewReactionOnComment where
  from_ : FeedFrom
  post_id : String
  comment_id : String
  created_time : Nat
  item : String
  parent_id : String
  reaction_type : String
  verb : String
deriving DecidableEq, Repr

/-- `FeedNewPost`: a single text post (`item: Literal["status"]`). -/
structure FeedNewPost where
  from_ : FeedFrom
  message : String
  post_id : String
  created_time : Nat
  item : String
  published : Nat
  verb : String
deriving DecidableEq, Repr

/-- `FeedNewPostWithPhoto`: a post with a single photo (`item: Literal["photo"]`). -/
structure FeedNewPostWithPhoto where
  from_ : FeedFrom
  link : String
  message : Option String
  post_id : String
  created_time : Nat
  item : String
  photo_id : String
  published : Nat
  verb : String
deriving DecidableEq, Repr

/-- `FeedNewPostWithManyPhotos`: a post with several photos (`item: Literal["status"]`). -/
structure FeedNewPostWithManyPhotos where
  from_ : FeedFrom
  link : String
  message : Option String
  photos : List String
  post_id : String
  created_time : Nat
  item : String
  published : Nat
  verb : String
deriving DecidableEq, Repr

/-- `FeedNewPostWithVideo`: a video post (`item: Literal["video"]`). -/
structure FeedNewPostWithVideo where
  from_ : FeedFrom
  link : String
  message : Option String
  post_id : String
  created_time : Nat
  item : String
  published : Nat
  verb : String
  video_id : String
deriving DecidableEq, Repr

/-- `FeedComment`: a plain comment (`item: Literal["comment"]`, `message : str`).
`is_reply` is the field assigned by the model validator
`_check_if_top_level_comment`. -/
structure FeedComment where
  from_ : FeedFrom
  post : FeedPostData
  message : String
  post_id : String
  comment_id : String
  created_time : Nat
  item : String
  parent_id : String
  verb : String
  is_reply : Bool
deriving DecidableEq, Repr

/-- `FeedCommentWithPhoto`: a comment carrying a `photo` url (`message : str | None`). -/
structure FeedCommentWithPhoto where
  from_ : FeedFrom
  post : FeedPostData
  message : Option String
  photo : String
  post_id : String
  comment_id : String
  created_time : Nat
  item : String
  parent_id : String
  verb : String
  is_reply : Bool
deriving DecidableEq, Repr

/-- `FeedCommentWithVideo`: a comment carrying a `video` url (`message : str | None`). -/
structure FeedCommentWithVideo where
  from_ : FeedFrom
  post : FeedPostData
  message : Option String
  video : String
  post_id : String
  comment_id : String
  created_time : Nat
  item : String
  parent_id : String
  verb : String
  is_reply : Bool
deriving DecidableEq, Repr

/-- The value union of `FacebookFeed`, in its declared member order:
`FeedNewReactionOnPost | FeedNewReactionOnComment | FeedNewPost |
FeedNewPostWithPhoto | FeedNewPostWithManyPhotos | FeedNewPostWithVideo |
FeedComment | FeedCommentWithPhoto | FeedCommentWithVideo`. -/
inductive FeedValue where
  | newReactionOnPost (x : FeedNewReactionOnPost)
  | newReactionOnComment (x : FeedNewReactionOnComment)
  | newPost (x : FeedNewPost)
  | newPostWithPhoto (x : FeedNewPostWithPhoto)
  | newPostWithManyPhotos (x : FeedNewPostWithManyPhotos)
  | newPostWithVideo (x : FeedNewPostWithVideo)
  | comment (x : FeedComment)
  | commentWithPhoto (x : FeedCommentWithPhoto)
  | commentWithVideo (x : FeedCommentWithVideo)
deriving DecidableEq, Repr

/-- `FacebookFeed`: one change of a page entry (`field: Literal["feed"]`). -/
structure FacebookFeed where
  field : String
  value : FeedValue
deriving DecidableEq, Repr

/-! ## Listener envelope

Modelled from the spec: the envelope model
`fbtools/official/models/listener/page/page.py` (`Page`, `PageEntry`,
`MessageEntry`) is not among the sources; only its importers are.  Per spec §3,
a `WebhookEnvelope` carries an object kind and an ordered sequence of entries,
each entry holding either `changes` (feed changes of a page entry) or
`messaging` (messaging events) — mutually exclusive, discriminated by which
key is present. -/

/-- Modelled from the spec: `PageEntry` — one page notification unit with its
ordered `changes`. -/
structure PageEntry where
  id : String
  time : Nat
  changes : List FacebookFeed
deriving DecidableEq, Repr

/-- Modelled from the spec: an entry is either a page entry (with `changes`)
or a messaging entry (with `messaging` events, whose content no claim below
inspects). -/
inductive PageOrMessageEntry where
  | pageEntry (e : PageEntry)
  | messageEntry
deriving DecidableEq, Repr

/-- Modelled from the spec: `Page` — the top-level webhook envelope with its
`object` kind and `entry` list. -/
structure Page where
  object : String
  entry : List PageOrMessageEntry
deriving DecidableEq, Repr

/-! ## Webhook verification (`listener.py`, `verify_webhook`) -/

/-- `WebhookParams`: the query parameters `hub.mode`, `hub.verify_token`,
`hub.challenge` of the `GET /webhook` request. -/
structure WebhookParams where
  mode : String
  token : String
  challenge : String
deriving DecidableEq, Repr

/-- Response of the verification endpoint: `403 Forbidden`, or `200` with the
given plain-text body. -/
inductive VerifyResponse where
  | forbidden
  | okBody (body : String)
deriving DecidableEq, Repr

/-- `verify_webhook` from `listener.py`: raises `403` when
`webhook_params.mode != "subscribe" and webhook_params.token != self.verify_token`
(note: the conjunction is exactly as in the source), otherwise answers `200`
with `webhook_params.challenge` as plain text. -/
def verify_webhook (verifyToken : String) (p : WebhookParams) : VerifyResponse :=
  if p.mode ≠ "subscribe" ∧ p.token ≠ verifyToken then
    VerifyResponse.forbidden
  else
    VerifyResponse.okBody p.challenge

/-! ## Comment validation (`feed.py`, `_check_if_top_level_comment`)

The three comment-family models share the model validator

```
unique_post_id = self.post_id.split("_")[1]
is_parent_id_comment = self.parent_id.split("_")[0] == unique_post_id
self.is_reply = is_parent_id_comment
```

`post_id.split("_")[1]` raises `IndexError` when `post_id` holds no
underscore; `parent_id.split("_")[0]` always exists.  Python's
`s.split("_")` (single-character separator) is `pySplit '_'` below. -/

/-- Splitting loop over the characters, current segment accumulated in
reverse. -/
def pySplitAux (sep : Char) : List Char → List Char → List (List Char)
  | [], acc => [acc.reverse]
  | c :: cs, acc =>
      if c == sep then acc.reverse :: pySplitAux sep cs []
      else pySplitAux sep cs (c :: acc)

/-- Python's `s.split(sep)` for a one-character separator: the segments
between occurrences of `sep`, in order; never the empty list. -/
def pySplit (sep : Char) (s : String) : List String :=
  (pySplitAux sep s.toList []).map String.mk

/-- Validation outcome classifier: `validationError` stands for a pydantic
`ValidationError` (missing/ill-typed field, a `ValueError` in a validator),
`indexError` for a non-`ValueError` exception escaping a validator, which
pydantic does not convert and which therefore propagates out of the whole
model (and union) validation. -/
inductive ValErr where
  | validationError
  | indexError
deriving DecidableEq, Repr

/-- The shared `_check_if_top_level_comment` validator body: `none` index
access means the `IndexError` branch. -/
def checkIfTopLevelComment (post_id parent_id : String) : Except ValErr Bool :=
  match (pySplit '_' post_id).get? 1 with
  | none => Except.error ValErr.indexError
  | some uniquePostId =>
      Except.ok (((pySplit '_' parent_id).headD "") == uniquePostId)

/-- A raw `value` object of a feed change with `item == "comment"`, as the
comment-family models see it.  `none` means the key is absent; for `message`,
`some none` means the key is present with a JSON `null`.  Nested objects
(`from`, `post`) are carried already validated, since no comment-family
discrimination depends on their content.  Keys other than the union of the
three models' fields are ignored by pydantic (default `extra="ignore"`) and
are not modelled. -/
structure RawCommentValue where
  from_ : Option FeedFrom
  post : Option FeedPostData
  message : Option (Option String)
  photo : Option String
  video : Option String
  post_id : Option String
  comment_id : Option String
  created_time : Option Nat
  item : Option String
  parent_id : Option String
  verb : Option String
deriving DecidableEq, Repr

/-- Membership test for the `FEED_VERB_TYPES` literal. -/
def feedVerbOk (v : String) : Bool := FEED_VERB_TYPES.contains v

/-- Validation of `FeedComment` from a raw comment value: all fields are
required, `message` must be a string (not null), `item` must equal
`"comment"`, `verb` must be one of the feed verbs; then the model validator
computes `is_reply`. -/
def validateFeedComment (r : RawCommentValue) : Except ValErr FeedComment :=
  match r.from_, r.post, r.message, r.post_id, r.comment_id, r.created_time,
      r.item, r.parent_id, r.verb with
  | some f, some q, some (some msg), some pid, some cid, some t,
      some "comment", some par, some vb =>
      if feedVerbOk vb then
        match checkIfTopLevelComment pid par with
        | Except.error e => Except.error e
        | Except.ok rep =>
            Except.ok ⟨f, q, msg, pid, cid, t, "comment", par, vb, rep⟩
      else Except.error ValErr.validationError
  | _, _, _, _, _, _, _, _, _ => Except.error ValErr.validationError

/-- Validation of `FeedCommentWithPhoto`: like `validateFeedComment` but
`message` may be null and a string `photo` field is required. -/
def validateFeedCommentWithPhoto (r : RawCommentValue) :
    Except ValErr FeedCommentWithPhoto :=
  match r.from_, r.post, r.message, r.photo, r.post_id, r.comment_id,
      r.created_time, r.item, r.parent_id, r.verb with
  | some f, some q, some msg, some ph, some pid, some cid, some t,
      some "comment", some par, some vb =>
      if feedVerbOk vb then
        match checkIfTopLevelComment pid par with
        | Except.error e => Except.error e
        | Except.ok rep =>
            Except.ok ⟨f, q, msg, ph, pid, cid, t, "comment", par, vb, rep⟩
      else Except.error ValErr.validationError
  | _, _, _, _, _, _, _, _, _, _ => Except.error ValErr.validationError

/-- Validation of `FeedCommentWithVideo`: like `validateFeedCommentWithPhoto`
with a required string `video` field instead of `photo`. -/
def validateFeedCommentWithVideo (r : RawCommentValue) :
    Except ValErr FeedCommentWithVideo :=
  match r.from_, r.post, r.message, r.video, r.post_id, r.comment_id,
      r.created_time, r.item, r.parent_id, r.verb with
  | some f, some q, some msg, some vd, some pid, some cid, some t,
      some "comment", some par, some vb =>
      if feedVerbOk vb then
        match checkIfTopLevelComment pid par with
        | Except.error e => Except.error e
        | Except.ok rep =>
            Except.ok ⟨f, q, msg, vd, pid, cid, t, "comment", par, vb, rep⟩
      else Except.error ValErr.validationError
  | _, _, _, _, _, _, _, _, _, _ => Except.error ValErr.validationError

/-- The comment-family members of the `FacebookFeed.value` union, in their
declared order. -/
inductive CommentVariant where
  | plain (c : FeedComment)
  | withPhoto (c : FeedCommentWithPhoto)
  | withVideo (c : FeedCommentWithVideo)
deriving DecidableEq, Repr

/-- Number of model fields set when `FeedComment` validates from a raw value:
its nine declared wire fields (all required).  Used by the union scoring. -/
def commentFieldsSet : Nat := 9

/-- Number of fields set for `FeedCommentWithPhoto`: the nine shared fields
plus `photo`. -/
def commentWithPhotoFieldsSet : Nat := 10

/-- Number of fields set for `FeedCommentWithVideo`: the nine shared fields
plus `video`. -/
def commentWithVideoFieldsSet : Nat := 10

/-- One comparison step of the smart-union scoring: keep the current
candidate when it validated and its fields-set count is at least the best
later candidate's (the earlier-declared member wins ties). -/
def betterCandidate (cur : Option CommentVariant × Nat)
    (best : Option (CommentVariant × Nat)) : Option (CommentVariant × Nat) :=
  match cur.1, best with
  | none, b => b
  | some v, none => some (v, cur.2)
  | some v, some (b, m) => if cur.2 ≥ m then some (v, cur.2) else some (b, m)

/-- Pydantic smart-union choice among successfully validated members: each
candidate carries its fields-set count; the candidate with the greater count
wins, and ties are broken in favour of the earlier-declared member. -/
def bestCandidate : List (Option CommentVariant × Nat) → Option (CommentVariant × Nat)
  | [] => none
  | c :: rest => betterCandidate c (bestCandidate rest)

/-- Resolution of a raw `item == "comment"` value against the
`FacebookFeed.value` union.  The six non-comment members of the union all
reject such a value on their `item` literal, so only the three comment-family
members participate.  Pydantic attempts members in declared order; a
non-`ValidationError` exception raised by a member's validator (here the
`IndexError` of `_check_if_top_level_comment`) propagates immediately, while
ordinary validation failures move on to the next member.  Among the members
that validate, the smart-union scoring of `bestCandidate` picks the result. -/
def resolveCommentFamily (r : RawCommentValue) : Except ValErr CommentVariant :=
  match validateFeedComment r with
  | Except.error ValErr.indexError => Except.error ValErr.indexError
  | rc =>
    match validateFeedCommentWithPhoto r with
    | Except.error ValErr.indexError => Except.error ValErr.indexError
    | rp =>
      match validateFeedCommentWithVideo r with
      | Except.error ValErr.indexError => Except.error ValErr.indexError
      | rv =>
          match bestCandidate
              [(rc.toOption.map CommentVariant.plain, commentFieldsSet),
               (rp.toOption.map CommentVariant.withPhoto, commentWithPhotoFieldsSet),
               (rv.toOption.map CommentVariant.withVideo, commentWithVideoFieldsSet)] with
          | some (v, _) => Except.ok v
          | none => Except.error ValErr.validationError

/-! ## Messaging discrimination (`message.py`, `_validate_message_type`) -/

/-- The keys of the `message_types` dict, in insertion order. -/
def messageTypeKeys : List String :=
  ["message", "message_edit", "optin", "reaction", "read", "postback", "referral"]

/-- `[name for name in message_types.keys() if name in data]`: the
mutually exclusive keys present in the raw messaging object, in
`message_types` order.  `dataKeys` are the keys of the raw dict. -/
def presentMessageKeys (dataKeys : List String) : List String :=
  messageTypeKeys.filter (fun k => dataKeys.contains k)

/-- Outcome of the key-discrimination step of `_validate_message_type`:
either the single discriminating key to pop and validate, or the
`ValueError` carrying the offending key list. -/
inductive MsgStep where
  | ok (fieldName : String)
  | error (offending : List String)
deriving DecidableEq, Repr

/-- The key-discrimination step of `_validate_message_type`: if the number of
present mutually exclusive keys differs from one, raise a `ValueError` whose
message lists `current_message_type`; otherwise proceed with the single key. -/
def validate_message_type (dataKeys : List String) : MsgStep :=
  match presentMessageKeys dataKeys with
  | [k] => MsgStep.ok k
  | _ => MsgStep.error (presentMessageKeys dataKeys)

/-! ## Event dispatcher (`events/dispatcher.py`)

`EventDispatcher.handlers` is a Python dict whose keys are the *objects*
passed to `register` and `invoke`.  Registration passes the event class
(`register(event: type[BaseEvent])`), while `handle_feed_event` passes the
freshly constructed event *instance* to `invoke`.  `BaseEvent` neither
overrides `__eq__` nor `__hash__`, so a class object and an instance are
always distinct dict keys.  `PyKey` models this key space; handlers are
identified by numeric ids. -/

/-- The domain event types of `events/models.py` relevant here. -/
inductive EventType where
  | newPost
  | postReaction
  | comment
  | commentReaction
  | message
  | messageReaction
deriving DecidableEq, Repr

/-- A Python dict key as used by the dispatcher: either an event class or a
concrete event instance (identity-keyed; `objId` distinguishes instances).
A `cls` key never equals an `inst` key. -/
inductive PyKey where
  | cls (t : EventType)
  | inst (t : EventType) (objId : Nat)
deriving DecidableEq, Repr

/-- One priority group: `{"priority": p, "handlers": hs}`. -/
structure HandlerGroup where
  priority : Int
  handlers : List Nat
deriving DecidableEq, Repr

/-- The dispatcher state: the `handlers` dict as an association list in key
insertion order. -/
structure DispatcherState where
  handlers : List (PyKey × List HandlerGroup)
deriving DecidableEq, Repr

/-- Fresh dispatcher (`EventDispatcher.__init__`). -/
def emptyDispatcher : DispatcherState := ⟨[]⟩

/-- Python `dict` lookup over the association list. -/
def dictGet (d : List (PyKey × List HandlerGroup)) (k : PyKey) :
    Option (List HandlerGroup) :=
  (d.find? (fun kv => kv.1 == k)).map (fun kv => kv.2)

/-- Python `dict` update: replace the value under an existing key, or append
a new binding. -/
def dictSet (d : List (PyKey × List HandlerGroup)) (k : PyKey)
    (v : List HandlerGroup) : List (PyKey × List HandlerGroup) :=
  if (d.find? (fun kv => kv.1 == k)).isSome then
    d.map (fun kv => if kv.1 == k then (k, v) else kv)
  else
    d ++ [(k, v)]

/-- The group-updating loop of `register`: append the handler to the group
with the same priority if one exists (`register` maintains at most one group
per priority), otherwise append a new group. -/
def registerGroups (groups : List HandlerGroup) (priority : Int) (h : Nat) :
    List HandlerGroup :=
  if groups.isEmpty then
    [⟨priority, [h]⟩]
  else if groups.any (fun g => g.priority == priority) then
    groups.map (fun g =>
      if g.priority == priority then ⟨g.priority, g.handlers ++ [h]⟩ else g)
  else
    groups ++ [⟨priority, [h]⟩]

/-- Stable insertion into an ascending group list: the new group goes before
the first existing group of priority not below its own. -/
def insertSorted (g : HandlerGroup) : List HandlerGroup → List HandlerGroup
  | [] => [g]
  | h :: t =>
      if h.priority < g.priority then h :: insertSorted g t
      else g :: h :: t

/-- `event_data.sort(key=itemgetter("priority"))`: a stable ascending sort by
priority (Python's `list.sort` is stable). -/
def sortGroups : List HandlerGroup → List HandlerGroup
  | [] => []
  | g :: t => insertSorted g (sortGroups t)

/-- `EventDispatcher.register`: the decorator adds handler `h` under the
event *class* key at the given priority and re-sorts the groups. -/
def register (d : DispatcherState) (event : EventType) (priority : Int)
    (h : Nat) : DispatcherState :=
  let key := PyKey.cls event
  let groups := (dictGet d.handlers key).getD []
  ⟨dictSet d.handlers key (sortGroups (registerGroups groups priority h))⟩

/-- Python exceptions surfaced by the pipeline.  `exceptionGroup` is the
aggregate shape (as an `ExceptionGroup` produced by `asyncio.TaskGroup`-style
dispatch would carry); plain `asyncio.gather` never produces it. -/
inductive PyErr where
  | indexError
  | attributeError
  | handlerError (id : Nat)
  | exceptionGroup (errs : List PyErr)
deriving Repr

/-- The error of an `Except` outcome, if any. -/
def errOption : Except PyErr Unit → Option PyErr
  | Except.ok _ => none
  | Except.error e => some e

/-- `await asyncio.gather(*tasks)` with the default
`return_exceptions=False`: the first exception raised by the tasks (in task
order, for the synchronous handler bodies modelled here) is propagated to
the awaiter; `none` when every task succeeds. -/
def firstErr (tier : List Nat) (b : Nat → Except PyErr Unit) : Option PyErr :=
  tier.findSome? (fun h => errOption (b h))

/-- The tier loop of `EventDispatcher.invoke`: for each priority group in
order, create one task per handler and `gather` them.  Returns the handlers
whose tasks were created, and the outcome: the first exception of the first
failing tier (later tiers are not started), or success. -/
def runTiers : List (List Nat) → (Nat → Except PyErr Unit) → List Nat × Except PyErr Unit
  | [], _ => ([], Except.ok ())
  | t :: rest, b =>
      match firstErr t b with
      | some e => (t, Except.error e)
      | none =>
          let r := runTiers rest b
          (t ++ r.1, r.2)

/-- `EventDispatcher.invoke` with handler behaviours `b`:
`handler_list = self.handlers.get(event, [])` — the dict lookup uses the
argument `event` as the key — then the tier loop runs. -/
def invokeRun (d : DispatcherState) (event : PyKey)
    (b : Nat → Except PyErr Unit) : List Nat × Except PyErr Unit :=
  match dictGet d.handlers event with
  | none => ([], Except.ok ())
  | some groups => runTiers (groups.map (fun g => g.handlers)) b

/-- The handlers fired by `EventDispatcher.invoke` for the given key when no
handler raises: all handlers of every priority group found under the key, in
tier order. -/
def invokeFired (d : DispatcherState) (event : PyKey) : List Nat :=
  match dictGet d.handlers event with
  | none => []
  | some groups => (groups.map (fun g => g.handlers)).flatten

/-! ## Feed event handling (`events/handler.py`, `handle_feed_event`) -/

/-- The `invoke` calls that `handle_feed_event` spawns
(`current_loop.create_task(official_event_dispatcher.invoke(event=...))`)
for one change at index `i` of the entry: new-post family changes dispatch an
`onNewPost` instance (no verb check in that branch); reaction changes with
`verb == "add"` dispatch reaction event instances; the comment-family branch
constructs its objects but dispatches nothing. -/
def dispatchesFor (i : Nat) (v : FeedValue) : List PyKey :=
  match v with
  | FeedValue.newPost _ => [PyKey.inst EventType.newPost i]
  | FeedValue.newPostWithPhoto _ => [PyKey.inst EventType.newPost i]
  | FeedValue.newPostWithManyPhotos _ => [PyKey.inst EventType.newPost i]
  | FeedValue.newPostWithVideo _ => [PyKey.inst EventType.newPost i]
  | FeedValue.newReactionOnPost r =>
      if r.verb == "add" then [PyKey.inst EventType.postReaction i] else []
  | FeedValue.comment _ => []
  | FeedValue.commentWithPhoto _ => []
  | FeedValue.commentWithVideo _ => []
  | FeedValue.newReactionOnComment r =>
      if r.verb == "add" then [PyKey.inst EventType.commentReaction i] else []

/-- `handle_feed_event`: casts `entry[0]` to `PageEntry` and loops over its
`changes`, spawning the dispatch calls of `dispatchesFor`.  An empty `entry`
raises `IndexError`; a messaging entry would fail on attribute access.
Result: the `invoke` keys passed to the dispatcher, in order. -/
def handle_feed_event (page : Page) : Except PyErr (List PyKey) :=
  match page.entry with
  | [] => Except.error PyErr.indexError
  | PageOrMessageEntry.messageEntry :: _ => Except.error PyErr.attributeError
  | PageOrMessageEntry.pageEntry pe :: _ =>
      Except.ok ((pe.changes.enum.map
        (fun ic => dispatchesFor ic.1 ic.2.value)).flatten)

/-- End-to-end fan-out for an envelope: the handlers actually fired when the
dispatch calls spawned by `handle_feed_event` run against dispatcher state
`d` (no handler raising). -/
def firedHandlers (d : DispatcherState) (page : Page) : Except PyErr (List Nat) :=
  (handle_feed_event page).map (fun ks => (ks.map (invokeFired d)).flatten)

/-! ## Deduplication cache (`listener.py`, `handle_webhook_events`)

`self.cache: FIFOCache[str, bool] = FIFOCache(maxsize=1024)`.  The cache is
modelled by its key list in insertion order (every stored value is `True`,
so `cache.get(key)` is truthy exactly when the key is present; `FIFOCache`
does not reorder on reads).  `__setitem__` on a new key evicts from the
front while the cache would exceed `maxsize`. -/

/-- A `cachetools.FIFOCache` over keys `K`: capacity and the surviving keys,
oldest first. -/
structure FIFOCache (K : Type) where
  maxsize : Nat
  keys : List K
deriving DecidableEq, Repr

/-- A fresh cache of the given capacity. -/
def fifoEmpty (K : Type) (maxsize : Nat) : FIFOCache K := ⟨maxsize, []⟩

/-- `cache.get(key)` truthiness: key presence. -/
def cacheGet {K : Type} [BEq K] (c : FIFOCache K) (k : K) : Bool :=
  c.keys.contains k

/-- `cache[key] = True`: an existing key keeps the insertion order and (here
always-`True`) value; a new key is appended after evicting oldest entries
until the capacity accommodates it (`drop (len + 1 - maxsize)` elements, the
eviction loop of `Cache.__setitem__`; the modelled cache always has
`maxsize ≥ 1`). -/
def cacheInsert {K : Type} [BEq K] (c : FIFOCache K) (k : K) : FIFOCache K :=
  if c.keys.contains k then c
  else ⟨c.maxsize, c.keys.drop (c.keys.length + 1 - c.maxsize) ++ [k]⟩

/-- The dedup fingerprint content: `feed_model.model_dump()` of a
`FeedNewPostWithPhoto` with `link` and `from_` deleted, in remaining key
order, as serialized by `json.dumps` and hashed with `blake2b`
(`digest_size=16`).  The hash of the canonical serialization is modelled by
the canonical content itself (hash collisions are out of scope). -/
structure DedupContent where
  message : Option String
  post_id : String
  created_time : Nat
  item : String
  photo_id : String
  published : Nat
  verb : String
deriving DecidableEq, Repr

/-- Fingerprint of an edited photo-post feed value. -/
def dedupKey (p : FeedNewPostWithPhoto) : DedupContent :=
  ⟨p.message, p.post_id, p.created_time, p.item, p.photo_id, p.published, p.verb⟩

/-- The suppression check inlined in `handle_webhook_events`
(spec §4.2 names it `should_suppress`): only a `FeedNewPostWithPhoto` whose
`verb == "edited"` is fingerprinted; a cached fingerprint suppresses without
mutating the cache, a fresh one is recorded and does not suppress.  Every
other feed value leaves the cache untouched and is never suppressed.
Returns (suppress?, cache after the call). -/
def should_suppress (c : FIFOCache DedupContent) (v : FeedValue) :
    Bool × FIFOCache DedupContent :=
  match v with
  | FeedValue.newPostWithPhoto p =>
      if p.verb == "edited" then
        let key := dedupKey p
        if cacheGet c key then (true, c)
        else (false, cacheInsert c key)
      else (false, c)
  | _ => (false, c)

/-- Whether a feed value takes the dedup branch of `handle_webhook_events`:
a photo-post variant with `verb == "edited"`. -/
def isEditedPhotoPost (v : FeedValue) : Bool :=
  match v with
  | FeedValue.newPostWithPhoto p => p.verb == "edited"
  | _ => false

/-- `handle_webhook_events` (POST `/webhook`): when the envelope's `object`
is `"page"`, its first entry is a `PageEntry` and that entry's first change
is an edited photo post, the dedup check runs on that change (and on nothing
else); a suppressed payload returns early.  Empty `entry` or `changes` lists
raise `IndexError` at the subscripts.  Result: whether the payload was
suppressed, and the cache afterwards. -/
def handle_webhook_events (c : FIFOCache DedupContent) (page : Page) :
    Except PyErr (Bool × FIFOCache DedupContent) :=
  if page.object == "page" then
    match page.entry with
    | [] => Except.error PyErr.indexError
    | PageOrMessageEntry.messageEntry :: _ => Except.ok (false, c)
    | PageOrMessageEntry.pageEntry pe :: _ =>
        match pe.changes with
        | [] => Except.error PyErr.indexError
        | ch :: _ => Except.ok (should_suppress c ch.value)
  else Except.ok (false, c)

/-- Sequential suppression runs: feed the edited photo posts one after the
other through `should_suppress`, keeping the cache. -/
def runInserts (c : FIFOCache DedupContent) (ps : List FeedNewPostWithPhoto) :
    FIFOCache DedupContent :=
  ps.foldl (fun acc p => (should_suppress acc (FeedValue.newPostWithPhoto p)).2) c

/-- Repeated raw insertion of keys into a FIFO cache. -/
def insertAll {K : Type} [BEq K] (c : FIFOCache K) (ks : List K) : FIFOCache K :=
  ks.foldl cacheInsert c

/-! ## Concrete fixtures for the claims -/

/-- A sample commenter / poster. -/
def sampleFrom : FeedFrom := ⟨"Alice Example", "111222333"⟩

/-- A sample `post` sub-object of a comment value. -/
def samplePost : FeedPostData :=
  ⟨"mobile_status_update", true, "2025-01-01T00:00:00+0000",
   "https://www.facebook.com/permalink", "inactive", "100_200"⟩

/-- A plain status post with `item "status"`, `verb "add"`. -/
def sampleNewPost : FeedNewPost :=
  ⟨sampleFrom, "hello world", "100_200", 1700000000, "status", 1, "add"⟩

/-- Envelope: one page entry with one `status`/`add` change. -/
def newPostEnvelope : Page :=
  ⟨"page", [PageOrMessageEntry.pageEntry
    ⟨"100", 1700000000, [⟨"feed", FeedValue.newPost sampleNewPost⟩]⟩]⟩

/-- Dispatcher state with exactly one handler (id `7`) registered for the
`onNewPost` event type at default priority `0`. -/
def newPostDispatcher : DispatcherState :=
  register emptyDispatcher EventType.newPost 0 7

/-- A plain comment change with `verb "add"` (top-level: `parent_id` equals
`post_id`). -/
def sampleComment : FeedComment :=
  ⟨sampleFrom, samplePost, "nice post", "100_200", "200_300",
   1700000001, "comment", "100_200", "add", false⟩

/-- Envelope: one page entry with one comment/`add` change. -/
def commentEnvelope : Page :=
  ⟨"page", [PageOrMessageEntry.pageEntry
    ⟨"100", 1700000001, [⟨"feed", FeedValue.comment sampleComment⟩]⟩]⟩

/-- Dispatcher state with two handlers (ids `0` and `1`) for `onNewPost`,
both at priority `0` — one priority tier with two concurrent handlers. -/
def twoHandlerDispatcher : DispatcherState :=
  register (register emptyDispatcher EventType.newPost 0 0) EventType.newPost 0 1

/-- Behaviour where every handler raises its own error. -/
def allRaise : Nat → Except PyErr Unit :=
  fun h => Except.error (PyErr.handlerError h)

/-- Raw comment value builder: every required key present, `item` fixed to
`"comment"`; `msg`, `ph`, `vd` control the `message`, `photo` and `video`
keys. -/
def mkRawComment (f : FeedFrom) (q : FeedPostData) (msg : Option (Option String))
    (ph vd : Option String) (pid cid : String) (t : Nat) (par vb : String) :
    RawCommentValue :=
  ⟨some f, some q, msg, ph, vd, some pid, some cid, some t, some "comment",
   some par, some vb⟩

/-- A comment raw value whose `post_id` holds no underscore. -/
def rawNoUnderscorePostId : RawCommentValue :=
  mkRawComment sampleFrom samplePost (some (some "hi")) none none
    "100200" "200_300" 1700000002 "100_300" "add"

/-- A comment raw value with `post_id "100_200"` and an underscore-free
`parent_id "200"`. -/
def rawNoUnderscoreParentId : RawCommentValue :=
  mkRawComment sampleFrom samplePost (some (some "hi")) none none
    "100_200" "200_300" 1700000003 "200" "add"

/-- A raw `item "comment"` value carrying both a `photo` and a `video` key
(malformed/ambiguous input of claim C6). -/
def rawBothPhotoAndVideo : RawCommentValue :=
  mkRawComment sampleFrom samplePost (some (some "look"))
    (some "https://photo.example/p.jpg") (some "https://video.example/v.mp4")
    "100_200" "200_300" 1700000004 "100_200" "add"

/-- An edited video post (a feed change with `verb "edited"` that is not a
photo post). -/
def editedVideoPost : FeedNewPostWithVideo :=
  ⟨sampleFrom, "https://video.example/v.mp4", some "caption", "100_201",
   1700000005, "video", 1, "edited", "777"⟩

/-- An edited photo-post change with the given creation time (the times make
the fingerprints pairwise distinct). -/
def mkEditedPhoto (i : Nat) : FeedNewPostWithPhoto :=
  ⟨sampleFrom, "https://photo.example/p.jpg", none, "100_202", i, "photo",
   "888", 1, "edited"⟩

/-- 1024 further structurally distinct edited photo posts (creation times 1
to 1024), to follow `mkEditedPhoto 0`. -/
def laterEditedPhotos : List FeedNewPostWithPhoto :=
  (List.range 1024).map (fun i => mkEditedPhoto (i + 1))

/-- Envelope whose first change is the comment/`add` change and whose second
change is an edited photo post: the dedup branch looks only at the first. -/
def commentThenEditedPhotoEnvelope : Page :=
  ⟨"page", [PageOrMessageEntry.pageEntry
    ⟨"100", 1700000006,
     [⟨"feed", FeedValue.comment sampleComment⟩,
      ⟨"feed", FeedValue.newPostWithPhoto (mkEditedPhoto 0)⟩]⟩]⟩

/-- The photo-variant result that the ambiguous dual-key payload of C6
actually resolves to. -/
def bothKeysResolved : FeedCommentWithPhoto :=
  ⟨sampleFrom, samplePost, some "look", "https://photo.example/p.jpg",
   "100_200", "200_300", 1700000004, "comment", "100_200", "add", false⟩

/-- Behaviour where only handler `1` raises. -/
def oneRaises : Nat → Except PyErr Unit :=
  fun h => if h == 1 then Except.error (PyErr.handlerError 1) else Except.ok ()

/-! ## Claim theorems -/

/-- C1: the claim states that the verification endpoint answers `200` with
the `hub.challenge` body exactly when the supplied `hub.verify_token` equals
the configured token (with `hub.mode == "subscribe"`), and `403` whenever
the token does not match.  Evaluating `verify_webhook` at the failing input
— `hub.mode == "subscribe"` with a wrong token — shows the code answering
`200` with the challenge: the source guards the `403` with `mode !=
"subscribe" and token != verify_token`, so a subscribe-mode request passes
with any token. -/
theorem c1_wrong_token_gets_challenge :
    verify_webhook "secret-token" ⟨"subscribe", "wrong-token", "challenge-123"⟩ =
      VerifyResponse.okBody "challenge-123" := rfl

/-- C2: the claim states that an envelope with one `status`/`add` feed change
and one registered `onNewPost` handler leads to exactly one handler
invocation.  Evaluating the pipeline shows zero invocations: the handler is
registered under the `onNewPost` *class* key, while `handle_feed_event`
invokes the dispatcher with the freshly constructed event *instance*, whose
dict lookup always misses.  The second conjunct shows the handler would be
found under the class key, so the failure is the key mismatch. -/
theorem c2_registered_handler_never_fired :
    firedHandlers newPostDispatcher newPostEnvelope = Except.ok [] ∧
    invokeFired newPostDispatcher (PyKey.cls EventType.newPost) = [7] :=
  ⟨rfl, rfl⟩

/-- C3: the claim states that a comment-family change with `verb "add"` makes
the classifier emit a Comment domain event.  Evaluating `handle_feed_event`
on an envelope with one comment/`add` change shows that no dispatch at all
is spawned: the comment branch of the source constructs the comment object
and `with_attachment` but never builds or invokes an `onComment` event. -/
theorem c3_comment_add_dispatches_nothing :
    handle_feed_event commentEnvelope = Except.ok [] := rfl

/-- C4 counterexample: with two handlers of the same priority tier that both
raise, `invoke` propagates the single first handler error — not a
group-level aggregate carrying the underlying handler errors, as the claim
requires. -/
theorem c4_gather_raises_single_first_error :
    invokeRun twoHandlerDispatcher (PyKey.cls EventType.newPost) allRaise =
      ([0, 1], Except.error (PyErr.handlerError 0)) ∧
    ∀ l, PyErr.handlerError 0 ≠ PyErr.exceptionGroup l :=
  ⟨rfl, fun _ h => PyErr.noConfusion h⟩

/-- C5 counterexample: a comment-family change whose `post_id` holds no
underscore fails validation with the `IndexError` of
`post_id.split("_")[1]`, where the claim requires validation not to fail. -/
theorem c5_no_underscore_post_id_fails_validation :
    validateFeedComment rawNoUnderscorePostId = Except.error ValErr.indexError :=
  rfl

/-- C8 counterexample: an edited *video* post — a syntactically valid
FeedChange with `verb == "edited"` — is never fingerprinted: running the
suppression check twice yields `(false, false)`, not the `(false, true)` the
claim requires for every edited feed change. -/
theorem c8_edited_video_post_never_suppressed :
    (should_suppress (fifoEmpty DedupContent 1024)
        (FeedValue.newPostWithVideo editedVideoPost)).1 = false ∧
    (should_suppress
        (should_suppress (fifoEmpty DedupContent 1024)
          (FeedValue.newPostWithVideo editedVideoPost)).2
        (FeedValue.newPostWithVideo editedVideoPost)).1 = false :=
  ⟨rfl, rfl⟩

/-- C6 counterexample: a feed-change value with `item == "comment"` carrying
both a `video` and a `photo` key resolves to the *CommentWithPhoto* variant,
not to CommentWithVideo as the claim requires: the union declares the photo
variant before the video variant and both match with the same number of
fields set. -/
theorem c6_both_keys_is_photo_not_video :
    resolveCommentFamily rawBothPhotoAndVideo =
      Except.ok (CommentVariant.withPhoto bothKeysResolved) ∧
    ∀ c, CommentVariant.withPhoto bothKeysResolved ≠ CommentVariant.withVideo c :=
  ⟨rfl, fun _ h => CommentVariant.noConfusion h⟩

/-- C5 amended: for a comment-family change with every required field
present and a valid verb, validation fails with an `IndexError` exactly when
`post_id` has no second underscore-segment; when it has one, validation
succeeds and `is_reply` is the comparison of `parent_id`'s first segment
with that second segment (so an underscore-free `parent_id` does not raise,
but its `is_reply` is the comparison result, not necessarily `false`). -/
theorem c5_amended (f : FeedFrom) (q : FeedPostData) (s : String)
    (ph vd : Option String) (pid cid : String) (t : Nat) (par vb : String)
    (hvb : feedVerbOk vb = true) :
    ((pySplit '_' pid).get? 1 = none →
      validateFeedComment (mkRawComment f q (some (some s)) ph vd pid cid t par vb) =
        Except.error ValErr.indexError) ∧
    (∀ u, (pySplit '_' pid).get? 1 = some u →
      validateFeedComment (mkRawComment f q (some (some s)) ph vd pid cid t par vb) =
        Except.ok ⟨f, q, s, pid, cid, t, "comment", par, vb,
          ((pySplit '_' par).headD "") == u⟩) := by
  refine ⟨fun h => ?_, fun u h => ?_⟩ <;>
    simp only [List.get?_eq_getElem?] at h <;>
    simp [validateFeedComment, mkRawComment, checkIfTopLevelComment, hvb, h]

/-- C5 amended witness: the comment raw value with `post_id "100_200"` and
underscore-free `parent_id "200"` validates without failing, and its
`is_reply` comes out `true` (`"200"` equals the second `post_id` segment). -/
theorem c5_amended_witness :
    feedVerbOk "add" = true ∧
    validateFeedComment rawNoUnderscoreParentId =
      Except.ok ⟨sampleFrom, samplePost, "hi", "100_200", "200_300",
        1700000003, "comment", "200", "add", true⟩ :=
  ⟨rfl, (c5_amended sampleFrom samplePost "hi" none none "100_200" "200_300"
    1700000003 "200" "add" rfl).2 "200" rfl⟩

/-- C6 amended: every feed-change value object with `item == "comment"`
carrying both a `video` and a `photo` key (all shared required fields
present, a valid verb, and a `post_id` with a second underscore-segment)
deterministically resolves — without raising — to the *CommentWithPhoto*
variant: the union scoring prefers members with more fields set, the photo
and video variants tie, and the tie goes to the earlier-declared photo
variant. -/
theorem c6_amended (f : FeedFrom) (q : FeedPostData) (m : Option String)
    (ph vd pid cid : String) (t : Nat) (par vb : String)
    (hvb : feedVerbOk vb = true) (u : String)
    (hu : (pySplit '_' pid).get? 1 = some u) :
    resolveCommentFamily
        (mkRawComment f q (some m) (some ph) (some vd) pid cid t par vb) =
      Except.ok (CommentVariant.withPhoto
        ⟨f, q, m, ph, pid, cid, t, "comment", par, vb,
         ((pySplit '_' par).headD "") == u⟩) := by
  simp only [List.get?_eq_getElem?] at hu
  cases m <;>
    simp [resolveCommentFamily, validateFeedComment, validateFeedCommentWithPhoto,
      validateFeedCommentWithVideo, mkRawComment, checkIfTopLevelComment, hvb, hu,
      bestCandidate, betterCandidate, commentFieldsSet, commentWithPhotoFieldsSet,
      commentWithVideoFieldsSet, Except.toOption]

/-- C6 amended witness: a dual-key comment value with a `null` message
resolves to the CommentWithPhoto variant. -/
theorem c6_amended_witness :
    feedVerbOk "add" = true ∧
    resolveCommentFamily
        (mkRawComment sampleFrom samplePost (some none) (some "p.jpg")
          (some "v.mp4") "100_200" "200_300" 7 "100_200" "add") =
      Except.ok (CommentVariant.withPhoto
        ⟨sampleFrom, samplePost, none, "p.jpg", "100_200", "200_300", 7,
         "comment", "100_200", "add", false⟩) :=
  ⟨rfl, c6_amended sampleFrom samplePost none "p.jpg" "v.mp4" "100_200"
    "200_300" 7 "100_200" "add" rfl "200" rfl⟩

/-- Membership in the present-key list is joint membership in the
mutually exclusive key set and in the raw object's keys. -/
theorem mem_presentMessageKeys (dataKeys : List String) (x : String) :
    x ∈ presentMessageKeys dataKeys ↔ x ∈ messageTypeKeys ∧ x ∈ dataKeys := by
  simp [presentMessageKeys, List.mem_filter]

/-- C7: `Message` validation proceeds past the message-type discrimination
step exactly when exactly one of the mutually exclusive keys `message`,
`message_edit`, `optin`, `reaction`, `read`, `postback`, `referral` is
present in the raw object; with zero or several of them present it raises a
`ValueError` listing precisely the offending present-key set. -/
theorem message_type_exactly_one (dataKeys : List String) :
    ((∃ k, validate_message_type dataKeys = MsgStep.ok k) ↔
      (∃! k, k ∈ messageTypeKeys ∧ k ∈ dataKeys)) ∧
    (∀ l, validate_message_type dataKeys = MsgStep.error l →
      l = presentMessageKeys dataKeys ∧
        ¬ ∃! k, k ∈ messageTypeKeys ∧ k ∈ dataKeys) := by
  have hmem := mem_presentMessageKeys dataKeys
  have hnodup : (presentMessageKeys dataKeys).Nodup :=
    List.Nodup.filter _ (by decide)
  rcases hshape : presentMessageKeys dataKeys with _ | ⟨a, _ | ⟨b, rest⟩⟩
  · have hno : ¬ ∃! k, k ∈ messageTypeKeys ∧ k ∈ dataKeys := by
      rintro ⟨k, hk, -⟩
      have hkmem := (hmem k).mpr hk
      rw [hshape] at hkmem
      exact absurd hkmem (List.not_mem_nil k)
    refine ⟨⟨fun ⟨k, hk⟩ => ?_, fun h => absurd h hno⟩, fun l hl => ?_⟩
    · unfold validate_message_type at hk
      rw [hshape] at hk
      exact MsgStep.noConfusion hk
    · unfold validate_message_type at hl
      rw [hshape] at hl
      exact ⟨(MsgStep.error.inj hl).symm, hno⟩
  · have hyes : ∃! k, k ∈ messageTypeKeys ∧ k ∈ dataKeys := by
      refine ⟨a, (hmem a).mp ?_, fun k' hk' => ?_⟩
      · rw [hshape]; exact List.mem_cons_self a []
      · have hk'mem := (hmem k').mpr hk'
        rw [hshape] at hk'mem
        simpa using hk'mem
    refine ⟨⟨fun _ => hyes, fun _ => ⟨a, ?_⟩⟩, fun l hl => ?_⟩
    · unfold validate_message_type
      rw [hshape]
    · unfold validate_message_type at hl
      rw [hshape] at hl
      exact MsgStep.noConfusion hl
  · have hno : ¬ ∃! k, k ∈ messageTypeKeys ∧ k ∈ dataKeys := by
      rintro ⟨k, hk, huniq⟩
      have ha : a ∈ presentMessageKeys dataKeys := by
        rw [hshape]; exact List.mem_cons_self a (b :: rest)
      have hb : b ∈ presentMessageKeys dataKeys := by
        rw [hshape]; exact List.mem_cons_of_mem a (List.mem_cons_self b rest)
      have hab : a ≠ b := by
        rw [hshape] at hnodup
        rcases List.nodup_cons.mp hnodup with ⟨hna, -⟩
        exact fun h => hna (h ▸ List.mem_cons_self b rest)
      exact hab (((huniq a ((hmem a).mp ha))).trans
        ((huniq b ((hmem b).mp hb))).symm)
    refine ⟨⟨fun ⟨k, hk⟩ => ?_, fun h => absurd h hno⟩, fun l hl => ?_⟩
    · unfold validate_message_type at hk
      rw [hshape] at hk
      exact MsgStep.noConfusion hk
    · unfold validate_message_type at hl
      rw [hshape] at hl
      exact ⟨(MsgStep.error.inj hl).symm, hno⟩

/-- C7 witness: a raw messaging object carrying both `message` and `read`
is rejected with the offending key set `["message", "read"]`, and one
carrying only `message` passes the discrimination step. -/
theorem message_type_exactly_one_witness :
    (["message", "read"] = presentMessageKeys ["message", "read", "sender"] ∧
      ¬ ∃! k, k ∈ messageTypeKeys ∧ k ∈ (["message", "read", "sender"] : List String)) ∧
    (∃ k, validate_message_type ["message", "sender"] = MsgStep.ok k) :=
  ⟨(message_type_exactly_one ["message", "read", "sender"]).2 ["message", "read"] rfl,
   (message_type_exactly_one ["message", "sender"]).1.mpr
     ⟨"message", by decide, fun y hy => by
        rcases hy with ⟨hy1, hy2⟩
        simp only [List.mem_cons, List.not_mem_nil, or_false] at hy2
        rcases hy2 with rfl | rfl
        · rfl
        · exact absurd hy1 (by decide)⟩⟩

/-- Tiers before the first failing tier all run and succeed; the first
failing tier's handlers are all started and the first exception propagates;
later tiers never start. -/
theorem runTiers_first_error (b : Nat → Except PyErr Unit) (e : PyErr) :
    ∀ (pre : List (List Nat)) (t : List Nat) (post : List (List Nat)),
      (∀ tier ∈ pre, ∀ h ∈ tier, b h = Except.ok ()) →
      firstErr t b = some e →
      runTiers (pre ++ t :: post) b = (pre.flatten ++ t, Except.error e)
  | [], t, post, _, he => by simp [runTiers, he]
  | tier :: pre, t, post, hpre, he => by
      have hnone : firstErr tier b = none := by
        rw [firstErr, List.findSome?_eq_none_iff]
        intro h hh
        rw [hpre tier (List.mem_cons_self tier pre) h hh]
        rfl
      have ih := runTiers_first_error b e pre t post
        (fun tr htr => hpre tr (List.mem_cons_of_mem tier htr)) he
      simp [runTiers, hnone, ih, List.flatten_cons, List.append_assoc]

/-- C4 amended: when a priority tier of an invoked event contains a failing
handler (all earlier tiers succeeding), `invoke` starts every handler of the
tiers up to and including that tier, propagates the first failing handler's
*single* exception — plain `asyncio.gather` forms no group-level aggregate
and does not await the remaining siblings before raising — and never starts
the remaining lower-priority tiers. -/
theorem c4_amended (d : DispatcherState) (k : PyKey)
    (b : Nat → Except PyErr Unit) (groups : List HandlerGroup)
    (pre : List (List Nat)) (t : List Nat) (post : List (List Nat)) (e : PyErr)
    (hget : dictGet d.handlers k = some groups)
    (hsplit : groups.map (fun g => g.handlers) = pre ++ t :: post)
    (hpre : ∀ tier ∈ pre, ∀ h ∈ tier, b h = Except.ok ())
    (he : firstErr t b = some e) :
    invokeRun d k b = (pre.flatten ++ t, Except.error e) := by
  simp only [invokeRun, hget]
  rw [hsplit]
  exact runTiers_first_error b e pre t post hpre he

/-- C4 amended witness: two handlers in the priority-0 tier, the second one
raising: both handlers start and the single error of handler `1` propagates
(no aggregate). -/
theorem c4_amended_witness :
    dictGet twoHandlerDispatcher.handlers (PyKey.cls EventType.newPost) =
      some [⟨0, [0, 1]⟩] ∧
    invokeRun twoHandlerDispatcher (PyKey.cls EventType.newPost) oneRaises =
      ([0, 1], Except.error (PyErr.handlerError 1)) :=
  ⟨rfl, c4_amended twoHandlerDispatcher (PyKey.cls EventType.newPost) oneRaises
    [⟨0, [0, 1]⟩] [] [0, 1] [] (PyErr.handlerError 1) rfl rfl
    (fun tier htr => absurd htr (List.not_mem_nil tier)) rfl⟩

/-- Inserting a fresh key makes it present. -/
theorem cacheGet_insert_self {K : Type} [BEq K] [LawfulBEq K]
    (c : FIFOCache K) (k : K) : cacheGet (cacheInsert c k) k = true := by
  rw [cacheGet, cacheInsert]
  split
  · assumption
  · simp

/-- C8 amended: for every *photo-post* feed change with `verb == "edited"`
and any cache state not containing its fingerprint, the first suppression
check does not suppress and records the fingerprint, and the second check on
the byte-identical change suppresses without mutating the cache — the
`(false, true)` behaviour claimed, restricted to the photo-post variant that
the code actually fingerprints. -/
theorem c8_amended (c : FIFOCache DedupContent) (p : FeedNewPostWithPhoto)
    (hverb : p.verb = "edited")
    (habsent : cacheGet c (dedupKey p) = false) :
    (should_suppress c (FeedValue.newPostWithPhoto p)).1 = false ∧
    cacheGet (should_suppress c (FeedValue.newPostWithPhoto p)).2 (dedupKey p) = true ∧
    should_suppress (should_suppress c (FeedValue.newPostWithPhoto p)).2
        (FeedValue.newPostWithPhoto p) =
      (true, (should_suppress c (FeedValue.newPostWithPhoto p)).2) := by
  have h1 : should_suppress c (FeedValue.newPostWithPhoto p) =
      (false, cacheInsert c (dedupKey p)) := by
    simp [should_suppress, hverb, habsent]
  have hk := cacheGet_insert_self c (dedupKey p)
  refine ⟨by rw [h1], by rw [h1]; exact hk, ?_⟩
  rw [h1]
  simp [should_suppress, hverb, hk]

/-- C8 amended witness: an edited photo post against the fresh cache —
`(false, true)`, fingerprint recorded, no mutation on the second call. -/
theorem c8_amended_witness :
    (mkEditedPhoto 0).verb = "edited" ∧
    cacheGet (fifoEmpty DedupContent 1024) (dedupKey (mkEditedPhoto 0)) = false ∧
    (should_suppress (fifoEmpty DedupContent 1024)
        (FeedValue.newPostWithPhoto (mkEditedPhoto 0))).1 = false ∧
    should_suppress
        (should_suppress (fifoEmpty DedupContent 1024)
          (FeedValue.newPostWithPhoto (mkEditedPhoto 0))).2
        (FeedValue.newPostWithPhoto (mkEditedPhoto 0)) =
      (true, (should_suppress (fifoEmpty DedupContent 1024)
        (FeedValue.newPostWithPhoto (mkEditedPhoto 0))).2) :=
  ⟨rfl, rfl,
   (c8_amended (fifoEmpty DedupContent 1024) (mkEditedPhoto 0) rfl rfl).1,
   (c8_amended (fifoEmpty DedupContent 1024) (mkEditedPhoto 0) rfl rfl).2.2⟩

/-- `cacheInsert` keeps the capacity. -/
theorem cacheInsert_maxsize {K : Type} [BEq K] (c : FIFOCache K) (k : K) :
    (cacheInsert c k).maxsize = c.maxsize := by
  rw [cacheInsert]
  split <;> rfl

/-- `cacheInsert` never exceeds the capacity. -/
theorem cacheInsert_length_le {K : Type} [BEq K] (c : FIFOCache K) (k : K)
    (h : c.keys.length ≤ c.maxsize) (hcap : 1 ≤ c.maxsize) :
    (cacheInsert c k).keys.length ≤ c.maxsize := by
  rw [cacheInsert]
  split
  · exact h
  · simp only [List.length_append, List.length_drop, List.length_cons,
      List.length_nil]
    omega

/-- `insertAll` keeps the capacity. -/
theorem insertAll_maxsize {K : Type} [BEq K] :
    ∀ (ks : List K) (c : FIFOCache K), (insertAll c ks).maxsize = c.maxsize
  | [], _ => rfl
  | k :: ks, c => by
      have ih := insertAll_maxsize ks (cacheInsert c k)
      simp only [insertAll, List.foldl_cons] at ih ⊢
      rw [ih, cacheInsert_maxsize]

/-- `insertAll` never exceeds the capacity: the cache size invariant. -/
theorem insertAll_length_le {K : Type} [BEq K] :
    ∀ (ks : List K) (c : FIFOCache K),
      c.keys.length ≤ c.maxsize → 1 ≤ c.maxsize →
      (insertAll c ks).keys.length ≤ c.maxsize
  | [], _, h, _ => h
  | k :: ks, c, h, hcap => by
      have ih := insertAll_length_le ks (cacheInsert c k)
        (by rw [cacheInsert_maxsize]; exact cacheInsert_length_le c k h hcap)
        (by rw [cacheInsert_maxsize]; exact hcap)
      rw [cacheInsert_maxsize] at ih
      simpa only [insertAll, List.foldl_cons] using ih

/-- FIFO content: inserting pairwise-fresh keys into a within-capacity cache
keeps exactly the newest `maxsize` keys — the concatenation of old and new
keys with the oldest surplus dropped from the front. -/
theorem insertAll_keys_of_nodup {K : Type} [BEq K] [LawfulBEq K] :
    ∀ (ks : List K) (c : FIFOCache K),
      (c.keys ++ ks).Nodup → c.keys.length ≤ c.maxsize → 1 ≤ c.maxsize →
      (insertAll c ks).keys =
        (c.keys ++ ks).drop (c.keys.length + ks.length - c.maxsize)
  | [], c, _, hle, _ => by
      simp only [insertAll, List.foldl_nil, List.append_nil, List.length_nil,
        Nat.add_zero]
      have hz : c.keys.length - c.maxsize = 0 := by omega
      rw [hz, List.drop_zero]
  | k :: ks, c, hnd, hle, hcap => by
      have hknotmem : k ∉ c.keys := by
        have hdisj := (List.nodup_append.mp hnd).2.2
        exact fun hmem => hdisj hmem (List.mem_cons_self k ks)
      have hcontains : c.keys.contains k = false := by
        simpa using hknotmem
      have hc' : cacheInsert c k =
          ⟨c.maxsize, c.keys.drop (c.keys.length + 1 - c.maxsize) ++ [k]⟩ := by
        rw [cacheInsert, if_neg (by simpa using hknotmem)]
      have hstep : insertAll c (k :: ks) = insertAll (cacheInsert c k) ks := by
        simp [insertAll, List.foldl_cons]
      have hrearrange : (c.keys.drop (c.keys.length + 1 - c.maxsize) ++ [k]) ++ ks =
          (c.keys ++ k :: ks).drop (c.keys.length + 1 - c.maxsize) := by
        rw [List.append_assoc, List.singleton_append,
          List.drop_append_of_le_length (by omega)]
      have hnd' : ((cacheInsert c k).keys ++ ks).Nodup := by
        rw [hc']
        refine hnd.sublist ?_
        rw [hrearrange]
        exact List.drop_sublist _ _
      have hle' : (cacheInsert c k).keys.length ≤ (cacheInsert c k).maxsize := by
        rw [cacheInsert_maxsize]
        exact cacheInsert_length_le c k hle hcap
      have hcap' : 1 ≤ (cacheInsert c k).maxsize := by
        rw [cacheInsert_maxsize]; exact hcap
      have ih := insertAll_keys_of_nodup ks (cacheInsert c k) hnd' hle' hcap'
      rw [hstep, ih, hc']
      simp only [List.length_append, List.length_drop, List.length_cons,
        List.length_nil, cacheInsert_maxsize]
      rw [hrearrange, List.drop_drop]
      congr 1
      omega

/-- On an edited photo post, the suppression step's cache is exactly a
`cacheInsert` of the fingerprint (a hit leaves the cache untouched, as does
`cacheInsert` on a present key). -/
theorem should_suppress_snd_edited (c : FIFOCache DedupContent)
    (p : FeedNewPostWithPhoto) (h : p.verb = "edited") :
    (should_suppress c (FeedValue.newPostWithPhoto p)).2 =
      cacheInsert c (dedupKey p) := by
  by_cases hmem : cacheGet c (dedupKey p) = true
  · have hcont : c.keys.contains (dedupKey p) = true := hmem
    have h2 : cacheInsert c (dedupKey p) = c := by
      rw [cacheInsert, if_pos hcont]
    rw [h2]
    simp [should_suppress, h, hmem]
  · simp [should_suppress, h, hmem]

/-- Running edited photo posts through the suppression check mutates the
cache exactly like raw FIFO insertion of their fingerprints. -/
theorem runInserts_eq_insertAll :
    ∀ (ps : List FeedNewPostWithPhoto) (c : FIFOCache DedupContent),
      (∀ p ∈ ps, p.verb = "edited") →
      runInserts c ps = insertAll c (ps.map dedupKey)
  | [], _, _ => rfl
  | p :: ps, c, hv => by
      have hstep := should_suppress_snd_edited c p (hv p (List.mem_cons_self p ps))
      have ih := runInserts_eq_insertAll ps (cacheInsert c (dedupKey p))
        (fun q hq => hv q (List.mem_cons_of_mem p hq))
      simp only [runInserts, List.foldl_cons, List.map_cons, insertAll] at ih ⊢
      rw [hstep]
      exact ih

/-- C9: the dedup cache never holds more than its capacity of 1024 entries
at any point while a sequence of edited photo posts is processed, and
eviction is first-in-first-out: after 1025 fingerprint-distinct edited photo
posts, the first-inserted fingerprint has been evicted, so re-submitting the
very first payload is not suppressed. -/
theorem c9_capacity_and_fifo_eviction (p0 : FeedNewPostWithPhoto)
    (rest : List FeedNewPostWithPhoto)
    (hnodup : ((p0 :: rest).map dedupKey).Nodup)
    (hlen : rest.length = 1024)
    (hverb : ∀ p ∈ p0 :: rest, p.verb = "edited") :
    (∀ i, (runInserts (fifoEmpty DedupContent 1024)
        ((p0 :: rest).take i)).keys.length ≤ 1024) ∧
    (should_suppress (runInserts (fifoEmpty DedupContent 1024) (p0 :: rest))
        (FeedValue.newPostWithPhoto p0)).1 = false := by
  constructor
  · intro i
    have hv : ∀ p ∈ (p0 :: rest).take i, p.verb = "edited" :=
      fun p hp => hverb p (List.take_subset i _ hp)
    rw [runInserts_eq_insertAll _ _ hv]
    exact insertAll_length_le (((p0 :: rest).take i).map dedupKey)
      (fifoEmpty DedupContent 1024) (by simp [fifoEmpty]) (by simp [fifoEmpty])
  · rw [runInserts_eq_insertAll _ _ hverb]
    have hkeys := insertAll_keys_of_nodup ((p0 :: rest).map dedupKey)
      (fifoEmpty DedupContent 1024) (by simpa [fifoEmpty] using hnodup)
      (by simp [fifoEmpty]) (by simp [fifoEmpty])
    have hkeys2 : (insertAll (fifoEmpty DedupContent 1024)
        ((p0 :: rest).map dedupKey)).keys = rest.map dedupKey := by
      rw [hkeys]
      simp [fifoEmpty, List.map_cons, List.length_map, List.length_cons, hlen]
    have hnotmem : dedupKey p0 ∉ rest.map dedupKey := by
      rw [List.map_cons] at hnodup
      exact (List.nodup_cons.mp hnodup).1
    have hget : cacheGet (insertAll (fifoEmpty DedupContent 1024)
        ((p0 :: rest).map dedupKey)) (dedupKey p0) = false := by
      rw [cacheGet, hkeys2]
      simpa using hnotmem
    simp only [List.map_cons] at hget
    simp [should_suppress, hverb p0 (List.mem_cons_self p0 rest), hget]

/-- C9 witness: the concrete run of 1025 edited photo posts with pairwise
distinct creation times through a fresh 1024-capacity cache: the first
payload is not suppressed when re-submitted after the run. -/
theorem c9_capacity_and_fifo_eviction_witness :
    laterEditedPhotos.length = 1024 ∧
    (should_suppress
        (runInserts (fifoEmpty DedupContent 1024)
          (mkEditedPhoto 0 :: laterEditedPhotos))
        (FeedValue.newPostWithPhoto (mkEditedPhoto 0))).1 = false := by
  have hnodup : ((mkEditedPhoto 0 :: laterEditedPhotos).map dedupKey).Nodup := by
    rw [List.map_cons]
    refine List.nodup_cons.mpr ⟨?_, ?_⟩
    · intro hmem
      rw [laterEditedPhotos, List.map_map, List.mem_map] at hmem
      obtain ⟨i, -, hi⟩ := hmem
      have hct := congrArg DedupContent.created_time hi
      simp [dedupKey, mkEditedPhoto] at hct
    · rw [laterEditedPhotos, List.map_map]
      refine List.Nodup.map ?_ (List.nodup_range 1024)
      intro a b hab
      have hct := congrArg DedupContent.created_time hab
      simpa [dedupKey, mkEditedPhoto] using hct
  have hlen : laterEditedPhotos.length = 1024 := by simp [laterEditedPhotos]
  have hverb : ∀ p ∈ mkEditedPhoto 0 :: laterEditedPhotos,
      p.verb = "edited" := by
    intro p hp
    rcases List.mem_cons.mp hp with rfl | hp2
    · rfl
    · rw [laterEditedPhotos, List.mem_map] at hp2
      obtain ⟨i, -, rfl⟩ := hp2
      rfl
  exact ⟨hlen,
    (c9_capacity_and_fifo_eviction (mkEditedPhoto 0) laterEditedPhotos
      hnodup hlen hverb).2⟩

/-- A feed value outside the edited-photo-post dedup branch leaves the
suppression step inert. -/
theorem should_suppress_of_not_edited (c : FIFOCache DedupContent)
    (v : FeedValue) (h : isEditedPhotoPost v = false) :
    should_suppress c v = (false, c) := by
  cases v <;> simp_all [should_suppress, isEditedPhotoPost]

/-- C10: deduplication is decided solely from the first change of the first
entry: whenever `entry[0].changes[0].value` is not a photo-post variant with
`verb "edited"`, the POST handler neither mutates the dedup cache nor
suppresses the payload — regardless of any edited photo post at a later
position of the envelope. -/
theorem c10_dedup_only_first_change (c : FIFOCache DedupContent) (page : Page)
    (pe : PageEntry) (ch : FacebookFeed)
    (h1 : page.entry.head? = some (PageOrMessageEntry.pageEntry pe))
    (h2 : pe.changes.head? = some ch)
    (h3 : isEditedPhotoPost ch.value = false) :
    handle_webhook_events c page = Except.ok (false, c) := by
  rcases page with ⟨po, entries⟩
  rcases entries with _ | ⟨e, tl⟩
  · simp at h1
  · have he : e = PageOrMessageEntry.pageEntry pe := by simpa using h1
    subst he
    rcases pe with ⟨pid, ptime, chs⟩
    rcases chs with _ | ⟨c0, ctl⟩
    · simp at h2
    · have hc : c0 = ch := by simpa using h2
      subst hc
      by_cases hpo : po == "page"
      · simp [handle_webhook_events, hpo,
          should_suppress_of_not_edited c c0.value h3]
      · simp [handle_webhook_events, hpo]

/-- C10 witness: the envelope whose first change is a comment/`add` change
and whose second change is an edited photo post is not suppressed and
leaves the fresh cache untouched. -/
theorem c10_dedup_only_first_change_witness :
    isEditedPhotoPost (FeedValue.comment sampleComment) = false ∧
    handle_webhook_events (fifoEmpty DedupContent 1024)
        commentThenEditedPhotoEnvelope =
      Except.ok (false, fifoEmpty DedupContent 1024) :=
  ⟨rfl, c10_dedup_only_first_change (fifoEmpty DedupContent 1024)
    commentThenEditedPhotoEnvelope
    ⟨"100", 1700000006,
     [⟨"feed", FeedValue.comment sampleComment⟩,
      ⟨"feed", FeedValue.newPostWithPhoto (mkEditedPhoto 0)⟩]⟩
    ⟨"feed", FeedValue.comment sampleComment⟩ rfl rfl rfl⟩
